import Mathlib

/-!
# nbind: `include/nbind/v8/BindWrapper.h`

A shallow embedding of the wrapper registry and wrapper lifecycle of
`BindWrapper.h`, with the instance table enabled (`DUPLICATE_POINTERS`
undefined).

* pointers are natural numbers, `0` is `nullptr`;
* `TypeFlags` is its underlying `uint32_t` value, `&` is bitwise and;
* a `std::shared_ptr<Bound>` is `Option Addr` (`none` is the empty handle) and
  the control blocks are the map `World.useCount`;
* `std::unordered_map` is an association list, `operator[]`, `erase` and the
  writes through the pointer returned by `operator[]` are list functions;
* member functions take the wrapper and the process state (`World`) and return
  the new ones.
-/

namespace nbind

/-! ## Data model -/

/-- A native address; `0` is `nullptr`. -/
abbrev Addr := Nat

/-- The enumeration `TypeFlags : uint32_t`, as its underlying value. -/
abbrev TypeFlags := Nat

/-- The enumerators of `TypeFlags` that `BindWrapper.h` uses. The enumeration is
declared in another header, so the values are a parameter of the embedding. Its
`operator&` is the bitwise and of the underlying values and its `operator!`
tests the underlying value for zero. -/
structure TypeFlagsDecl where
  isConst : TypeFlags
  refMask : TypeFlags
  isSharedPtr : TypeFlags
deriving DecidableEq, Repr

/-- Modelled from the spec: the enumerators of `TypeFlags` are declared outside
`BindWrapper.h`; the spec describes a bit set with an `isConst` bit and an
`isSharedPtr` bit. This is one such assignment, used to run the general
theorems on concrete inputs. -/
def sampleFlags : TypeFlagsDecl :=
  { isConst := 1, refMask := 56, isSharedPtr := 32 }

/-- The class `HashablePair<A, B>`: a `std::pair` with structural equality. -/
structure HashablePair (A B : Type) where
  first : A
  second : B
deriving DecidableEq, Repr

/-- The key type of the instance table. -/
abbrev Key := HashablePair Addr TypeFlags

/-- A `Nan::Persistent<v8::Object>`: the object referred to (`none` for an
empty handle) and the two marks set by `SetWeak` and `MarkIndependent`. -/
structure Persistent where
  target : Option Nat
  weak : Bool
  independent : Bool
deriving DecidableEq, Repr

/-- The default-constructed (empty) persistent handle. -/
def Persistent.empty : Persistent :=
  { target := none, weak := false, independent := false }

/-- The call `Reset(obj)`: drop the old reference and hold a new strong one. -/
def Persistent.Reset (_p : Persistent) (obj : Nat) : Persistent :=
  { target := some obj, weak := false, independent := false }

/-- The call `SetWeak(...)`. -/
def Persistent.SetWeak (p : Persistent) : Persistent :=
  { p with weak := true }

/-- The call `MarkIndependent()`. -/
def Persistent.MarkIndependent (p : Persistent) : Persistent :=
  { p with independent := true }

/-- The type of `instanceTbl`. -/
abbrev InstanceTbl := List (Key × Persistent)

/-- The mapped value stored under a key, when there is one. -/
def InstanceTbl.find : InstanceTbl → Key → Option Persistent
  | [], _ => none
  | (k', v) :: rest, k => if k' = k then some v else InstanceTbl.find rest k

/-- The call `operator[](k)` as far as the table is concerned: a
default-constructed value is inserted when the key is absent. -/
def InstanceTbl.subscript (tbl : InstanceTbl) (k : Key) : InstanceTbl :=
  match InstanceTbl.find tbl k with
  | some _ => tbl
  | none => (k, Persistent.empty) :: tbl

/-- Reading through the reference returned by `operator[](k)`. -/
def InstanceTbl.deref (tbl : InstanceTbl) (k : Key) : Persistent :=
  (InstanceTbl.find tbl k).getD Persistent.empty

/-- Writing through the reference returned by `operator[](k)`. -/
def InstanceTbl.modify (tbl : InstanceTbl) (k : Key) (f : Persistent → Persistent) :
    InstanceTbl :=
  tbl.map (fun en => (en.1, if en.1 = k then f en.2 else en.2))

/-- The call `erase(k)`. -/
def InstanceTbl.erase (tbl : InstanceTbl) (k : Key) : InstanceTbl :=
  tbl.filter (fun en => decide (en.1 ≠ k))

/-- The process state the wrappers share: the instance table, the use counts of
the `shared_ptr` control blocks (by managed address, a signed counter as in the
standard library), the log of native values deleted by a last release, and the
`shared_ptr` objects that live on the heap (by their own address). -/
structure World where
  instanceTbl : InstanceTbl
  useCount : Addr → Int
  deleted : List Addr
  sharedAt : Addr → Option Addr

/-- Copy construction of a `shared_ptr`: one more owner. -/
def sharedCopy (W : World) (sp : Option Addr) : World :=
  match sp with
  | none => W
  | some p => { W with useCount := Function.update W.useCount p (W.useCount p + 1) }

/-- Destruction or `reset()` of a `shared_ptr`: one owner fewer, and the native
value is deleted when this was the last owner. -/
def sharedRelease (W : World) (sp : Option Addr) : World :=
  match sp with
  | none => W
  | some p =>
    { W with
      useCount := Function.update W.useCount p (W.useCount p - 1)
      deleted := if W.useCount p = 1 then p :: W.deleted else W.deleted }

/-- The member `get()` of a `shared_ptr`. -/
def sharedGet (sp : Option Addr) : Addr :=
  match sp with
  | none => 0
  | some p => p

/-- The call `std::make_shared<Bound>(args...)`, where `p` is the address the
allocation returned: a new control block with one owner. -/
def makeShared (W : World) (p : Addr) : Option Addr × World :=
  (some p, { W with useCount := Function.update W.useCount p 1 })

/-- The exception thrown by `getBound`. -/
inductive Exn where
  | runtime_error (what : String)
deriving DecidableEq, Repr

/-- The message of the exception thrown by `getBound`. -/
def constArgMessage : String := "Passing a const value as a non-const argument"

/-- The fields of `BindWrapperBase` and `BindWrapper<Bound>`, with the
persistent handle of `node::ObjectWrap`. -/
structure BindWrapper where
  boundUnsafe : Addr
  flags : TypeFlags
  boundShared : Option Addr
  handle_ : Persistent
deriving DecidableEq, Repr

/-- What the callbacks read from `Nan::FunctionCallbackInfo`: the receiver
`This()`, the pointer in the external `nanArgs[0]` and `nanArgs[1]->Uint32Value()`. -/
structure FunctionCallbackInfo where
  This : Nat
  arg0 : Addr
  arg1 : Nat
deriving DecidableEq, Repr

/-! ## `BindWrapperBase` -/

/-- The constructor `BindWrapperBase(void *bound, TypeFlags flags)` through
`BindWrapper(Bound *bound, TypeFlags flags)`. -/
def BindWrapper.mkUnsafe (bound : Addr) (flags : TypeFlags) : BindWrapper :=
  { boundUnsafe := bound, flags := flags, boundShared := none, handle_ := Persistent.empty }

/-- The constructor `BindWrapper(std::shared_ptr<Bound> bound, TypeFlags flags)`:
the member `boundShared` is copy-constructed from the parameter. -/
def BindWrapper.mkShared (bound : Option Addr) (flags : TypeFlags) (W : World) :
    BindWrapper × World :=
  ({ boundUnsafe := sharedGet bound, flags := flags, boundShared := bound,
     handle_ := Persistent.empty },
   sharedCopy W bound)

/-- The member `getFlags`. -/
def getFlags (w : BindWrapper) : TypeFlags := w.flags

/-- The member `getBound`. -/
def getBound (e : TypeFlagsDecl) (argFlags : TypeFlags) (s : BindWrapper × World) :
    Except Exn (Addr × (BindWrapper × World)) :=
  if (s.1.flags &&& e.isConst) ≠ 0 ∧ (argFlags &&& e.isConst) = 0 then
    Except.error (Exn.runtime_error constArgMessage)
  else
    Except.ok (s.1.boundUnsafe, s)

/-- The static member `findInstance`: the table after `operator[]` and the
mapped value the returned pointer refers to. -/
def findInstance (tbl : InstanceTbl) (ptr : Addr) (flags : TypeFlags) :
    Persistent × InstanceTbl :=
  let tbl1 := InstanceTbl.subscript tbl ⟨ptr, flags⟩
  (InstanceTbl.deref tbl1 ⟨ptr, flags⟩, tbl1)

/-- The member `addInstance`. -/
def addInstance (w : BindWrapper) (obj : Nat) (W : World) : World :=
  let k : Key := ⟨w.boundUnsafe, w.flags⟩
  let tbl1 := InstanceTbl.subscript W.instanceTbl k
  let tbl2 := InstanceTbl.modify tbl1 k (fun r => r.Reset obj)
  let tbl3 := InstanceTbl.modify tbl2 k Persistent.SetWeak
  let tbl4 := InstanceTbl.modify tbl3 k Persistent.MarkIndependent
  { W with instanceTbl := tbl4 }

/-- The member `removeInstance`. -/
def removeInstance (w : BindWrapper) (W : World) : World :=
  { W with instanceTbl := InstanceTbl.erase W.instanceTbl ⟨w.boundUnsafe, w.flags⟩ }

/-- The member `Wrap` of `node::ObjectWrap`: the wrapper holds the object
through its own weak persistent handle. -/
def Wrap (w : BindWrapper) (obj : Nat) : BindWrapper :=
  { w with handle_ := ((w.handle_.Reset obj).SetWeak).MarkIndependent }

/-- The member `wrapThis`. -/
def wrapThis (nanArgs : FunctionCallbackInfo) (s : BindWrapper × World) :
    BindWrapper × World :=
  let W1 := addInstance s.1 nanArgs.This s.2
  (Wrap s.1 nanArgs.This, W1)

/-! ## `BindWrapper<Bound>` -/

/-- The member `destroy`. -/
def destroy (s : BindWrapper × World) : BindWrapper × World :=
  if s.1.boundUnsafe = 0 then s
  else
    let W1 := removeInstance s.1 s.2
    let w1 := { s.1 with boundUnsafe := 0 }
    let W2 := sharedRelease W1 w1.boundShared
    ({ w1 with boundShared := none }, W2)

/-- The member `getShared`: a copy of `boundShared`. -/
def getShared (s : BindWrapper × World) : Option Addr × (BindWrapper × World) :=
  (s.1.boundShared, (s.1, sharedCopy s.2 s.1.boundShared))

/-- The static member `createObj`, where `p` is the address of the value that
`std::make_shared` allocated. The constructor parameter is destroyed at the end
of the full expression. -/
def createObj (e : TypeFlagsDecl) (nanArgs : FunctionCallbackInfo) (p : Addr) (W : World) :
    BindWrapper × World :=
  let made := makeShared W p
  let s1 := BindWrapper.mkShared made.1 e.isSharedPtr made.2
  let s2 := wrapThis nanArgs s1
  (s2.1, sharedRelease s2.2 made.1)

/-- The static member `wrapPtr`. -/
def wrapPtr (e : TypeFlagsDecl) (nanArgs : FunctionCallbackInfo) (W : World) :
    BindWrapper × World :=
  let flags : TypeFlags := nanArgs.arg1
  let ptr : Addr := nanArgs.arg0
  if flags &&& e.refMask = e.isSharedPtr then
    let ptrShared := W.sharedAt ptr
    let s1 := BindWrapper.mkShared ptrShared flags (sharedCopy W ptrShared)
    let s2 := wrapThis nanArgs s1
    let W3 := sharedRelease s2.2 ptrShared
    let W4 := sharedRelease W3 ptrShared
    (s2.1, { W4 with sharedAt := Function.update W4.sharedAt ptr none })
  else
    wrapThis nanArgs (BindWrapper.mkUnsafe ptr flags, W)

/-- The state at process start: an empty instance table and no native values. -/
def World.init : World :=
  { instanceTbl := [], useCount := fun _ => 0, deleted := [], sharedAt := fun _ => none }

/-- The function `n` times iterated `getShared`, keeping every returned handle. -/
def getSharedTimes : Nat → BindWrapper × World → List (Option Addr) × (BindWrapper × World)
  | 0, s => ([], s)
  | n + 1, s =>
    let r := getShared s
    let rest := getSharedTimes n r.2
    (r.1 :: rest.1, rest.2)

/-- A process state in which the heap cell `0x3000` holds a temporary
`shared_ptr` to the value at `0x2000`, which has two owners. -/
def World.crossing : World :=
  { instanceTbl := []
    useCount := fun a => if a = 0x2000 then 2 else 0
    deleted := []
    sharedAt := fun a => if a = 0x3000 then some 0x2000 else none }

/-! ## Sequences of calls on one wrapper -/

/-- One call on a wrapper: a member function of the wrapper, or a step of the
rest of the process, which may replace the process state but cannot reach the
wrapper's fields. -/
inductive WrapperOp where
  | wrapThis (nanArgs : FunctionCallbackInfo)
  | getBound (argFlags : TypeFlags)
  | getShared
  | destroy
  | env (W : World)

/-- Whether a call is `destroy`. -/
def WrapperOp.isDestroy : WrapperOp → Bool
  | WrapperOp.destroy => true
  | _ => false

/-- The state after one call; a `getBound` that throws leaves the state as it
was. -/
def applyOp (e : TypeFlagsDecl) (s : BindWrapper × World) : WrapperOp → BindWrapper × World
  | WrapperOp.wrapThis nanArgs => wrapThis nanArgs s
  | WrapperOp.getBound argFlags =>
    match getBound e argFlags s with
    | Except.ok r => r.2
    | Except.error _ => s
  | WrapperOp.getShared => (getShared s).2
  | WrapperOp.destroy => destroy s
  | WrapperOp.env W => (s.1, W)

/-- The state after a sequence of calls. -/
def applyOps (e : TypeFlagsDecl) : List WrapperOp → BindWrapper × World → BindWrapper × World
  | [], s => s
  | op :: ops, s => applyOps e ops (applyOp e s op)

/-! ## The process: all wrappers and the calls that create and destroy them -/

/-- The key under which a wrapper is registered and erased. -/
def BindWrapper.key (w : BindWrapper) : Key := ⟨w.boundUnsafe, w.flags⟩

/-- The wrappers allocated so far, in order of allocation, and the process
state they share. -/
structure Sys where
  wrappers : List BindWrapper
  world : World

/-- The process at start: no wrapper and an empty instance table. -/
def Sys.init : Sys := { wrappers := [], world := World.init }

/-- The specialisation `std::hash<nbind::HashablePair<A, B>>`: `bits` is the
width of `size_t`, `hashA` and `hashB` are the library's `std::hash<A>` and
`std::hash<B>`; every `size_t` operation wraps. -/
def hashPair {A B : Type} (bits : Nat) (hashA : A → Nat) (hashB : B → Nat)
    (obj : HashablePair A B) : Nat :=
  let result := (hashA obj.first + 0x9e3779b9) % 2 ^ bits
  let result := ((result <<< 6) % 2 ^ bits + result >>> 2) % 2 ^ bits
  (result + (hashB obj.second + 0x9e3779b9) % 2 ^ bits) % 2 ^ bits

/-- The specialisation `std::hash<nbind::TypeFlags>`: the library's
`std::hash<uint32_t>` at `static_cast<uint32_t>(flags)`. -/
def hashTypeFlags (hashU32 : Nat → Nat) (flags : TypeFlags) : Nat :=
  hashU32 (flags % 2 ^ 32)

/-- The hash of a key as the specification words it: with `r1 = hash(a) + 0x9e3779b9`
and `r2 = (r1 << 6) + (r1 >> 2)`, the value `r2 + hash(b) + 0x9e3779b9`, each
taken in `size_t` wrapping arithmetic. -/
def hashPairStated (bits : Nat) (ha hb : Nat) : Nat :=
  let r1 := (ha + 0x9e3779b9) % 2 ^ bits
  let r2 := ((r1 <<< 6) + (r1 >>> 2)) % 2 ^ bits
  (r2 + hb + 0x9e3779b9) % 2 ^ bits

/-! ## The instance table -/

theorem InstanceTbl.find_cons (k0 : Key) (v : Persistent) (rest : InstanceTbl) (k : Key) :
    InstanceTbl.find ((k0, v) :: rest) k
      = if k0 = k then some v else InstanceTbl.find rest k := rfl

theorem InstanceTbl.erase_cons (k0 : Key) (v : Persistent) (rest : InstanceTbl) (k : Key) :
    InstanceTbl.erase ((k0, v) :: rest) k
      = if k0 = k then InstanceTbl.erase rest k
        else (k0, v) :: InstanceTbl.erase rest k := by
  by_cases h : k0 = k <;> simp [InstanceTbl.erase, List.filter_cons, h]

theorem InstanceTbl.modify_cons (k0 : Key) (v : Persistent) (rest : InstanceTbl) (k : Key)
    (f : Persistent → Persistent) :
    InstanceTbl.modify ((k0, v) :: rest) k f
      = (k0, if k0 = k then f v else v) :: InstanceTbl.modify rest k f := rfl

theorem InstanceTbl.find_erase_self (tbl : InstanceTbl) (k : Key) :
    InstanceTbl.find (InstanceTbl.erase tbl k) k = none := by
  induction tbl with
  | nil => rfl
  | cons en rest ih =>
    obtain ⟨k0, v⟩ := en
    rw [InstanceTbl.erase_cons]
    by_cases h : k0 = k
    · rw [if_pos h]; exact ih
    · rw [if_neg h, InstanceTbl.find_cons, if_neg h]; exact ih

theorem InstanceTbl.find_erase_ne (tbl : InstanceTbl) (k k' : Key) (hne : k' ≠ k) :
    InstanceTbl.find (InstanceTbl.erase tbl k) k' = InstanceTbl.find tbl k' := by
  induction tbl with
  | nil => rfl
  | cons en rest ih =>
    obtain ⟨k0, v⟩ := en
    rw [InstanceTbl.erase_cons, InstanceTbl.find_cons]
    by_cases h : k0 = k
    · have h0 : ¬ k0 = k' := fun h1 => hne (h1 ▸ h)
      rw [if_pos h, if_neg h0]; exact ih
    · rw [if_neg h, InstanceTbl.find_cons]
      by_cases h1 : k0 = k'
      · rw [if_pos h1, if_pos h1]
      · rw [if_neg h1, if_neg h1]; exact ih

theorem InstanceTbl.not_mem_erase (tbl : InstanceTbl) (k : Key) :
    ∀ en ∈ InstanceTbl.erase tbl k, en.1 ≠ k := by
  intro en he
  simpa [InstanceTbl.erase] using (List.mem_filter.mp he).2

theorem InstanceTbl.find_subscript_self (tbl : InstanceTbl) (k : Key) :
    InstanceTbl.find (InstanceTbl.subscript tbl k) k = some (InstanceTbl.deref tbl k) := by
  unfold InstanceTbl.subscript InstanceTbl.deref
  cases h : InstanceTbl.find tbl k with
  | none => simp [InstanceTbl.find_cons]
  | some v => simp [h]

theorem InstanceTbl.find_subscript_ne (tbl : InstanceTbl) (k k' : Key) (hne : k' ≠ k) :
    InstanceTbl.find (InstanceTbl.subscript tbl k) k' = InstanceTbl.find tbl k' := by
  unfold InstanceTbl.subscript
  cases h : InstanceTbl.find tbl k with
  | none => simp [InstanceTbl.find_cons, Ne.symm hne]
  | some v => simp

theorem InstanceTbl.find_modify_self (tbl : InstanceTbl) (k : Key)
    (f : Persistent → Persistent) :
    InstanceTbl.find (InstanceTbl.modify tbl k f) k = (InstanceTbl.find tbl k).map f := by
  induction tbl with
  | nil => rfl
  | cons en rest ih =>
    obtain ⟨k0, v⟩ := en
    rw [InstanceTbl.modify_cons, InstanceTbl.find_cons, InstanceTbl.find_cons]
    by_cases h : k0 = k
    · rw [if_pos h, if_pos h, if_pos h]; rfl
    · rw [if_neg h, if_neg h]; exact ih

theorem InstanceTbl.find_modify_ne (tbl : InstanceTbl) (k k' : Key)
    (f : Persistent → Persistent) (hne : k' ≠ k) :
    InstanceTbl.find (InstanceTbl.modify tbl k f) k' = InstanceTbl.find tbl k' := by
  induction tbl with
  | nil => rfl
  | cons en rest ih =>
    obtain ⟨k0, v⟩ := en
    rw [InstanceTbl.modify_cons, InstanceTbl.find_cons, InstanceTbl.find_cons]
    by_cases h1 : k0 = k'
    · have h0 : ¬ k0 = k := fun h => hne (h1 ▸ h)
      rw [if_pos h1, if_pos h1, if_neg h0]
    · rw [if_neg h1, if_neg h1]; exact ih

theorem InstanceTbl.length_modify (tbl : InstanceTbl) (k : Key)
    (f : Persistent → Persistent) :
    (InstanceTbl.modify tbl k f).length = tbl.length := by
  simp [InstanceTbl.modify]

theorem InstanceTbl.subscript_of_find_none (tbl : InstanceTbl) (k : Key)
    (h : InstanceTbl.find tbl k = none) :
    InstanceTbl.subscript tbl k = (k, Persistent.empty) :: tbl := by
  simp [InstanceTbl.subscript, h]

theorem InstanceTbl.subscript_of_find_some (tbl : InstanceTbl) (k : Key) (v : Persistent)
    (h : InstanceTbl.find tbl k = some v) :
    InstanceTbl.subscript tbl k = tbl := by
  simp [InstanceTbl.subscript, h]

/-! ## Access -/

/-- C1: `getBound f` throws exactly when the wrapper's flags have the `isConst`
bit and `f` does not; otherwise it returns the stored address `boundUnsafe` and
the wrapper and the process state (instance table included) are as before. A
wrapper rewrapped at address `0x1000` with flags `isConst` throws for the empty
flags and returns `0x1000` for the flags `isConst`. -/
theorem getBound_throws_iff_const_violation (e : TypeFlagsDecl) (w : BindWrapper)
    (W : World) (f : TypeFlags) (This : Nat) :
    ((∃ x, getBound e f (w, W) = Except.error x) ↔
        ((w.flags &&& e.isConst) ≠ 0 ∧ (f &&& e.isConst) = 0)) ∧
    (((w.flags &&& e.isConst) ≠ 0 ∧ (f &&& e.isConst) = 0) ∨
        getBound e f (w, W) = Except.ok (w.boundUnsafe, (w, W))) ∧
    getBound sampleFlags 0 (wrapPtr sampleFlags ⟨This, 0x1000, sampleFlags.isConst⟩ W)
      = Except.error (Exn.runtime_error constArgMessage) ∧
    getBound sampleFlags sampleFlags.isConst
        (wrapPtr sampleFlags ⟨This, 0x1000, sampleFlags.isConst⟩ W)
      = Except.ok (0x1000, wrapPtr sampleFlags ⟨This, 0x1000, sampleFlags.isConst⟩ W) := by
  refine ⟨?_, ?_, ?_, ?_⟩
  · by_cases h : (w.flags &&& e.isConst) ≠ 0 ∧ (f &&& e.isConst) = 0
    · have hg : getBound e f (w, W) = Except.error (Exn.runtime_error constArgMessage) :=
        if_pos h
      exact ⟨fun _ => h, fun _ => ⟨_, hg⟩⟩
    · have hg : getBound e f (w, W) = Except.ok (w.boundUnsafe, (w, W)) := if_neg h
      refine ⟨?_, fun hc => absurd hc h⟩
      rintro ⟨x, hx⟩
      rw [hg] at hx
      cases hx
  · by_cases h : (w.flags &&& e.isConst) ≠ 0 ∧ (f &&& e.isConst) = 0
    · exact Or.inl h
    · exact Or.inr (if_neg h)
  · simp [getBound, wrapPtr, wrapThis, Wrap, BindWrapper.mkUnsafe, sampleFlags]
  · simp [getBound, wrapPtr, wrapThis, Wrap, BindWrapper.mkUnsafe, sampleFlags]

/-! ## Destruction -/

/-- C2: `destroy` is idempotent: a second call leaves the wrapper, the instance
table, the use counts and the deletion log exactly as the first call left
them. -/
theorem destroy_idempotent (s : BindWrapper × World) :
    destroy (destroy s) = destroy s := by
  by_cases h : s.1.boundUnsafe = 0
  · simp [destroy, h]
  · simp [destroy, h]

/-- C3: for a wrapper whose address is not null, `destroy` erases the instance
table at the key made of the address and flags the wrapper had before the call:
no entry with that key is left, a lookup of that key finds nothing, a lookup of
any other key finds what it found before, and the wrapper's address is null
afterwards. -/
theorem destroy_erases_own_key (s : BindWrapper × World) (h : s.1.boundUnsafe ≠ 0) :
    (destroy s).2.instanceTbl
        = InstanceTbl.erase s.2.instanceTbl ⟨s.1.boundUnsafe, s.1.flags⟩ ∧
    (∀ en ∈ (destroy s).2.instanceTbl, en.1 ≠ ⟨s.1.boundUnsafe, s.1.flags⟩) ∧
    InstanceTbl.find (destroy s).2.instanceTbl ⟨s.1.boundUnsafe, s.1.flags⟩ = none ∧
    (∀ k : Key, k ≠ ⟨s.1.boundUnsafe, s.1.flags⟩ →
        InstanceTbl.find (destroy s).2.instanceTbl k = InstanceTbl.find s.2.instanceTbl k) ∧
    (destroy s).1.boundUnsafe = 0 := by
  have htbl : (destroy s).2.instanceTbl
      = InstanceTbl.erase s.2.instanceTbl ⟨s.1.boundUnsafe, s.1.flags⟩ := by
    simp only [destroy, if_neg h, removeInstance]
    cases s.1.boundShared <;> rfl
  refine ⟨htbl, ?_, ?_, ?_, ?_⟩
  · rw [htbl]
    exact InstanceTbl.not_mem_erase _ _
  · rw [htbl]
    exact InstanceTbl.find_erase_self _ _
  · intro k hk
    rw [htbl]
    exact InstanceTbl.find_erase_ne _ _ _ hk
  · simp [destroy, h]

/-- C3 at a concrete input: a wrapper rewrapped at `0x1000` with flags `isConst`
in the initial process state, then destroyed. -/
theorem destroy_erases_own_key_witness :
    (wrapPtr sampleFlags ⟨7, 0x1000, 1⟩ World.init).1.boundUnsafe ≠ 0 ∧
    InstanceTbl.find (destroy (wrapPtr sampleFlags ⟨7, 0x1000, 1⟩ World.init)).2.instanceTbl
        ⟨0x1000, 1⟩ = none ∧
    (destroy (wrapPtr sampleFlags ⟨7, 0x1000, 1⟩ World.init)).1.boundUnsafe = 0 :=
  ⟨by decide,
   (destroy_erases_own_key (wrapPtr sampleFlags ⟨7, 0x1000, 1⟩ World.init) (by decide)).2.2.1,
   (destroy_erases_own_key (wrapPtr sampleFlags ⟨7, 0x1000, 1⟩ World.init) (by decide)).2.2.2.2⟩

/-- C4: for a wrapper whose address is not null, `destroy` lowers the use count
of the value its shared handle manages by exactly one, changes no other use
count, and deletes that value exactly when the count was one; with an empty
shared handle no use count changes and nothing is deleted; afterwards the
wrapper's shared handle is empty. -/
theorem destroy_releases_shared_handle (s : BindWrapper × World)
    (h : s.1.boundUnsafe ≠ 0) :
    (∀ p : Addr, s.1.boundShared = some p →
        (destroy s).2.useCount p = s.2.useCount p - 1 ∧
        (∀ q : Addr, q ≠ p → (destroy s).2.useCount q = s.2.useCount q) ∧
        (destroy s).2.deleted
          = (if s.2.useCount p = 1 then p :: s.2.deleted else s.2.deleted) ∧
        ((destroy s).2.deleted = p :: s.2.deleted ↔ s.2.useCount p = 1)) ∧
    (s.1.boundShared = none →
        (destroy s).2.useCount = s.2.useCount ∧ (destroy s).2.deleted = s.2.deleted) ∧
    (destroy s).1.boundShared = none := by
  refine ⟨?_, ?_, ?_⟩
  · intro p hp
    have hd : (destroy s).2 = sharedRelease (removeInstance s.1 s.2) (some p) := by
      simp only [destroy, if_neg h, hp]
    rw [hd]
    refine ⟨?_, ?_, ?_, ?_⟩
    · simp [sharedRelease, removeInstance]
    · intro q hq
      simp [sharedRelease, removeInstance, Function.update_noteq hq]
    · simp [sharedRelease, removeInstance]
    · by_cases h1 : s.2.useCount p = 1
      · simp [sharedRelease, removeInstance, h1]
      · simp [sharedRelease, removeInstance, h1]
  · intro hn
    have hd : (destroy s).2 = removeInstance s.1 s.2 := by
      simp only [destroy, if_neg h, hn, sharedRelease]
    rw [hd]
    exact ⟨rfl, rfl⟩
  · simp [destroy, h]

/-- C4 at a concrete input: a freshly constructed value at `0x2000`, whose only
owner is the wrapper, is deleted by `destroy`. -/
theorem destroy_releases_shared_handle_witness :
    (createObj sampleFlags ⟨7, 0, 0⟩ 0x2000 World.init).1.boundUnsafe ≠ 0 ∧
    (destroy (createObj sampleFlags ⟨7, 0, 0⟩ 0x2000 World.init)).2.useCount 0x2000 = 0 ∧
    (destroy (createObj sampleFlags ⟨7, 0, 0⟩ 0x2000 World.init)).2.deleted = [0x2000] ∧
    (destroy (createObj sampleFlags ⟨7, 0, 0⟩ 0x2000 World.init)).1.boundShared = none := by
  have hcount : (createObj sampleFlags ⟨7, 0, 0⟩ 0x2000 World.init).2.useCount 0x2000 = 1 := by
    simp [createObj, makeShared, BindWrapper.mkShared, sharedCopy, sharedRelease, wrapThis,
      addInstance, World.init]
  have hdel : (createObj sampleFlags ⟨7, 0, 0⟩ 0x2000 World.init).2.deleted = [] := by
    simp [createObj, makeShared, BindWrapper.mkShared, sharedCopy, sharedRelease, wrapThis,
      addInstance, World.init]
  have key := destroy_releases_shared_handle
    (createObj sampleFlags ⟨7, 0, 0⟩ 0x2000 World.init) (by decide)
  obtain ⟨h1, h2, h3, _⟩ := key.1 0x2000 rfl
  refine ⟨by decide, ?_, ?_, key.2.2⟩
  · rw [h1, hcount]; rfl
  · rw [h3, hcount, hdel]; rfl

/-! ## Lookup and registration -/

/-- C5: `findInstance` returns the slot stored under the key. When the key was
absent an empty slot is first added under it and no other key is affected; when
the key was present the table is unchanged. A second call with the same key
returns the same slot and leaves the table as the first call left it. -/
theorem findInstance_returns_slot (tbl : InstanceTbl) (ptr : Addr) (flags : TypeFlags) :
    InstanceTbl.find (findInstance tbl ptr flags).2 ⟨ptr, flags⟩
        = some (findInstance tbl ptr flags).1 ∧
    (InstanceTbl.find tbl ⟨ptr, flags⟩ = none →
        findInstance tbl ptr flags
          = (Persistent.empty, (⟨ptr, flags⟩, Persistent.empty) :: tbl)) ∧
    (∀ v : Persistent, InstanceTbl.find tbl ⟨ptr, flags⟩ = some v →
        findInstance tbl ptr flags = (v, tbl)) ∧
    (∀ k : Key, k ≠ ⟨ptr, flags⟩ →
        InstanceTbl.find (findInstance tbl ptr flags).2 k = InstanceTbl.find tbl k) ∧
    findInstance (findInstance tbl ptr flags).2 ptr flags = findInstance tbl ptr flags := by
  have hself := InstanceTbl.find_subscript_self tbl ⟨ptr, flags⟩
  refine ⟨?_, ?_, ?_, ?_, ?_⟩
  · simp only [findInstance, InstanceTbl.deref, hself, Option.getD_some]
  · intro hn
    simp [findInstance, InstanceTbl.subscript, InstanceTbl.deref, hn, InstanceTbl.find_cons]
  · intro v hv
    simp [findInstance, InstanceTbl.subscript, InstanceTbl.deref, hv]
  · intro k hk
    exact InstanceTbl.find_subscript_ne tbl _ k hk
  · have hsub : InstanceTbl.subscript (InstanceTbl.subscript tbl ⟨ptr, flags⟩) ⟨ptr, flags⟩
        = InstanceTbl.subscript tbl ⟨ptr, flags⟩ :=
      InstanceTbl.subscript_of_find_some _ _ _ hself
    simp only [findInstance, hsub]

theorem InstanceTbl.length_subscript_le (tbl : InstanceTbl) (k : Key) :
    (InstanceTbl.subscript tbl k).length ≤ tbl.length + 1 := by
  unfold InstanceTbl.subscript
  cases InstanceTbl.find tbl k <;> simp

theorem InstanceTbl.length_le_subscript (tbl : InstanceTbl) (k : Key) :
    tbl.length ≤ (InstanceTbl.subscript tbl k).length := by
  unfold InstanceTbl.subscript
  cases InstanceTbl.find tbl k <;> simp

theorem addInstance_find_self (w : BindWrapper) (obj : Nat) (W : World) :
    InstanceTbl.find (addInstance w obj W).instanceTbl ⟨w.boundUnsafe, w.flags⟩
      = some { target := some obj, weak := true, independent := true } := by
  simp only [addInstance, InstanceTbl.find_modify_self, InstanceTbl.find_subscript_self]
  rfl

theorem addInstance_find_ne (w : BindWrapper) (obj : Nat) (W : World) (k : Key)
    (hk : k ≠ ⟨w.boundUnsafe, w.flags⟩) :
    InstanceTbl.find (addInstance w obj W).instanceTbl k = InstanceTbl.find W.instanceTbl k := by
  simp only [addInstance, InstanceTbl.find_modify_ne _ _ _ _ hk,
    InstanceTbl.find_subscript_ne _ _ _ hk]

theorem addInstance_frame (w : BindWrapper) (obj : Nat) (W : World) :
    (addInstance w obj W).useCount = W.useCount ∧
    (addInstance w obj W).deleted = W.deleted ∧
    (addInstance w obj W).sharedAt = W.sharedAt :=
  ⟨rfl, rfl, rfl⟩

theorem destroy_find_ne (s : BindWrapper × World) (k : Key)
    (hk : k ≠ ⟨s.1.boundUnsafe, s.1.flags⟩) :
    InstanceTbl.find (destroy s).2.instanceTbl k = InstanceTbl.find s.2.instanceTbl k := by
  by_cases h : s.1.boundUnsafe = 0
  · simp only [destroy, if_pos h]
  · have htbl : (destroy s).2.instanceTbl
        = InstanceTbl.erase s.2.instanceTbl ⟨s.1.boundUnsafe, s.1.flags⟩ := by
      simp only [destroy, if_neg h, removeInstance]
      cases s.1.boundShared <;> rfl
    rw [htbl]
    exact InstanceTbl.find_erase_ne _ _ _ hk

/-- C6: after `wrapThis` (through `addInstance`) registers the object `This()`
for a wrapper with address `a` and flags `f`, `findInstance a f` returns a slot
that refers to that object and is marked weak, whatever the slot held before,
and does not change the table; the number of entries grows by at most one. -/
theorem wrapThis_registers_weak_slot (nanArgs : FunctionCallbackInfo) (w : BindWrapper)
    (W : World) :
    (wrapThis nanArgs (w, W)).2 = addInstance w nanArgs.This W ∧
    findInstance (wrapThis nanArgs (w, W)).2.instanceTbl w.boundUnsafe w.flags
      = ({ target := some nanArgs.This, weak := true, independent := true },
         (wrapThis nanArgs (w, W)).2.instanceTbl) ∧
    (findInstance (wrapThis nanArgs (w, W)).2.instanceTbl w.boundUnsafe w.flags).1.target
      = some nanArgs.This ∧
    (findInstance (wrapThis nanArgs (w, W)).2.instanceTbl w.boundUnsafe w.flags).1.weak
      = true ∧
    W.instanceTbl.length ≤ (wrapThis nanArgs (w, W)).2.instanceTbl.length ∧
    (wrapThis nanArgs (w, W)).2.instanceTbl.length ≤ W.instanceTbl.length + 1 := by
  have hfind := addInstance_find_self w nanArgs.This W
  have hfi : findInstance (wrapThis nanArgs (w, W)).2.instanceTbl w.boundUnsafe w.flags
      = ({ target := some nanArgs.This, weak := true, independent := true },
         (wrapThis nanArgs (w, W)).2.instanceTbl) := by
    have hsub := InstanceTbl.subscript_of_find_some _ _ _ hfind
    simp only [wrapThis, findInstance, hsub, InstanceTbl.deref, hfind, Option.getD_some]
  have hlen : (wrapThis nanArgs (w, W)).2.instanceTbl.length
      = (InstanceTbl.subscript W.instanceTbl ⟨w.boundUnsafe, w.flags⟩).length := by
    simp only [wrapThis, addInstance, InstanceTbl.length_modify]
  refine ⟨rfl, hfi, ?_, ?_, ?_, ?_⟩
  · rw [hfi]
  · rw [hfi]
  · rw [hlen]; exact InstanceTbl.length_le_subscript _ _
  · rw [hlen]; exact InstanceTbl.length_subscript_le _ _

/-- C7: for one address and two different flags values the two keys are
different table identities: registering an object for a wrapper with the first
flags (by `addInstance` or `wrapThis`) and destroying that wrapper leave the
slot under the second flags as it was. This holds in particular when the second
flags are the first with the `isConst` bit toggled, which always differ from the
first. -/
theorem distinct_flags_keep_separate_slots (w : BindWrapper) (W : World)
    (nanArgs : FunctionCallbackInfo) (f2 : TypeFlags) (hne : w.flags ≠ f2) :
    (⟨w.boundUnsafe, w.flags⟩ : Key) ≠ ⟨w.boundUnsafe, f2⟩ ∧
    InstanceTbl.find (addInstance w nanArgs.This W).instanceTbl ⟨w.boundUnsafe, f2⟩
      = InstanceTbl.find W.instanceTbl ⟨w.boundUnsafe, f2⟩ ∧
    InstanceTbl.find (wrapThis nanArgs (w, W)).2.instanceTbl ⟨w.boundUnsafe, f2⟩
      = InstanceTbl.find W.instanceTbl ⟨w.boundUnsafe, f2⟩ ∧
    InstanceTbl.find (destroy (w, W)).2.instanceTbl ⟨w.boundUnsafe, f2⟩
      = InstanceTbl.find W.instanceTbl ⟨w.boundUnsafe, f2⟩ ∧
    InstanceTbl.find (destroy (wrapThis nanArgs (w, W))).2.instanceTbl ⟨w.boundUnsafe, f2⟩
      = InstanceTbl.find W.instanceTbl ⟨w.boundUnsafe, f2⟩ ∧
    (∀ e : TypeFlagsDecl, e.isConst ≠ 0 → w.flags ≠ w.flags ^^^ e.isConst) := by
  have hk : (⟨w.boundUnsafe, f2⟩ : Key) ≠ ⟨w.boundUnsafe, w.flags⟩ := by
    intro hc
    exact hne (congrArg HashablePair.second hc).symm
  have hadd := addInstance_find_ne w nanArgs.This W _ hk
  have hd := destroy_find_ne (wrapThis nanArgs (w, W)) ⟨w.boundUnsafe, f2⟩ hk
  refine ⟨fun hc => hk hc.symm, hadd, hadd, destroy_find_ne (w, W) _ hk, hd.trans hadd, ?_⟩
  intro e he hc
  have h2 : w.flags ^^^ e.isConst = w.flags ^^^ 0 := by rw [Nat.xor_zero]; exact hc.symm
  exact he (Nat.xor_right_injective h2)

/-- C7 at a concrete input: a const view and a mutable view of `0x1000`; the
mutable view is registered and destroyed, the const slot stays. -/
theorem distinct_flags_keep_separate_slots_witness :
    (0 : TypeFlags) ≠ 0 ^^^ sampleFlags.isConst ∧
    InstanceTbl.find
      (destroy (wrapThis ⟨8, 0x1000, 0⟩ (BindWrapper.mkUnsafe 0x1000 0,
        (wrapPtr sampleFlags ⟨7, 0x1000, 1⟩ World.init).2))).2.instanceTbl ⟨0x1000, 1⟩
      = some { target := some 7, weak := true, independent := true } := by
  have key := (distinct_flags_keep_separate_slots (BindWrapper.mkUnsafe 0x1000 0)
    (wrapPtr sampleFlags ⟨7, 0x1000, 1⟩ World.init).2 ⟨8, 0x1000, 0⟩ 1 (by decide)).2.2.2.2.1
  exact ⟨by decide, key.trans (by decide)⟩

/-! ## Fresh construction -/

theorem createObj_wrapper (e : TypeFlagsDecl) (nanArgs : FunctionCallbackInfo) (p : Addr)
    (W : World) :
    (createObj e nanArgs p W).1
      = { boundUnsafe := p, flags := e.isSharedPtr, boundShared := some p,
          handle_ := { target := some nanArgs.This, weak := true, independent := true } } :=
  rfl

/-- C8: `createObj`, for the non-null address `p` that `make_shared` returned,
yields a wrapper whose flags are exactly `isSharedPtr`, whose address is `p` and
not null, and whose shared handle manages `p`; the use count of `p` is one, no
value was deleted, and the table slot under `(p, isSharedPtr)` refers to the
object `This()` that the wrapper wraps. -/
theorem createObj_fresh_wrapper (e : TypeFlagsDecl) (nanArgs : FunctionCallbackInfo)
    (p : Addr) (W : World) (hp : p ≠ 0) :
    getFlags (createObj e nanArgs p W).1 = e.isSharedPtr ∧
    (createObj e nanArgs p W).1.boundUnsafe = p ∧
    (createObj e nanArgs p W).1.boundUnsafe ≠ 0 ∧
    (createObj e nanArgs p W).1.boundShared = some (createObj e nanArgs p W).1.boundUnsafe ∧
    (createObj e nanArgs p W).2.useCount p = 1 ∧
    (createObj e nanArgs p W).2.deleted = W.deleted ∧
    InstanceTbl.find (createObj e nanArgs p W).2.instanceTbl ⟨p, e.isSharedPtr⟩
      = some { target := some nanArgs.This, weak := true, independent := true } ∧
    (createObj e nanArgs p W).1.handle_.target = some nanArgs.This := by
  refine ⟨rfl, rfl, hp, rfl, ?_, ?_, ?_, rfl⟩
  · simp [createObj, makeShared, BindWrapper.mkShared, sharedCopy, sharedRelease, wrapThis,
      addInstance]
  · simp [createObj, makeShared, BindWrapper.mkShared, sharedCopy, sharedRelease, wrapThis,
      addInstance]
  · have h := addInstance_find_self
      (BindWrapper.mkShared (makeShared W p).1 e.isSharedPtr (makeShared W p).2).1
      nanArgs.This
      (BindWrapper.mkShared (makeShared W p).1 e.isSharedPtr (makeShared W p).2).2
    simpa [createObj, makeShared, BindWrapper.mkShared, sharedCopy, sharedRelease, wrapThis,
      sharedGet] using h

/-- C8 at a concrete input: construction at `0x2000` in the initial state. -/
theorem createObj_fresh_wrapper_witness :
    (0x2000 : Addr) ≠ 0 ∧
    getFlags (createObj sampleFlags ⟨7, 0, 0⟩ 0x2000 World.init).1 = 32 ∧
    (createObj sampleFlags ⟨7, 0, 0⟩ 0x2000 World.init).2.useCount 0x2000 = 1 ∧
    InstanceTbl.find (createObj sampleFlags ⟨7, 0, 0⟩ 0x2000 World.init).2.instanceTbl
        ⟨0x2000, 32⟩
      = some { target := some 7, weak := true, independent := true } :=
  ⟨by decide,
   (createObj_fresh_wrapper sampleFlags ⟨7, 0, 0⟩ 0x2000 World.init (by decide)).1,
   (createObj_fresh_wrapper sampleFlags ⟨7, 0, 0⟩ 0x2000 World.init (by decide)).2.2.2.2.1,
   (createObj_fresh_wrapper sampleFlags ⟨7, 0, 0⟩ 0x2000 World.init (by decide)).2.2.2.2.2.2.1⟩

/-! ## Shared ownership query -/

theorem getSharedTimes_of_shared (n : Nat) (w : BindWrapper) (p : Addr)
    (hw : w.boundShared = some p) (W : World) :
    (getSharedTimes n (w, W)).1 = List.replicate n (some p) ∧
    (getSharedTimes n (w, W)).2.1 = w ∧
    (getSharedTimes n (w, W)).2.2.useCount p = W.useCount p + n ∧
    (∀ q : Addr, q ≠ p → (getSharedTimes n (w, W)).2.2.useCount q = W.useCount q) ∧
    (getSharedTimes n (w, W)).2.2.deleted = W.deleted ∧
    (getSharedTimes n (w, W)).2.2.instanceTbl = W.instanceTbl := by
  induction n generalizing W with
  | zero => simp [getSharedTimes]
  | succ n ih =>
    have hstep : getShared (w, W)
        = (some p, (w, { W with useCount := Function.update W.useCount p (W.useCount p + 1) })) := by
      simp [getShared, hw, sharedCopy]
    obtain ⟨h1, h2, h3, h4, h5, h6⟩ :=
      ih { W with useCount := Function.update W.useCount p (W.useCount p + 1) }
    simp only [getSharedTimes, hstep]
    refine ⟨?_, h2, ?_, ?_, h5, h6⟩
    · rw [h1]; rfl
    · rw [h3]; simp; ring
    · intro q hq
      rw [h4 q hq]
      simp [Function.update_noteq hq]

/-- C9: for the wrapper that `createObj` made, as long as it is as constructed
(not destroyed), `getShared` in any later process state returns a handle to the
wrapper's own address, leaves the wrapper as it is and raises the use count of
that address by exactly one; `n` calls whose handles are all kept return `n`
such handles and raise the count by `n`, so directly after construction the
count is `1 + n`. -/
theorem getShared_fresh_increments (e : TypeFlagsDecl) (nanArgs : FunctionCallbackInfo)
    (p : Addr) (W W' : World) (n : Nat) :
    (getShared ((createObj e nanArgs p W).1, W')).1
      = some (createObj e nanArgs p W).1.boundUnsafe ∧
    (getShared ((createObj e nanArgs p W).1, W')).2.1 = (createObj e nanArgs p W).1 ∧
    (getShared ((createObj e nanArgs p W).1, W')).2.2.useCount
        (createObj e nanArgs p W).1.boundUnsafe
      = W'.useCount (createObj e nanArgs p W).1.boundUnsafe + 1 ∧
    (getSharedTimes n ((createObj e nanArgs p W).1, W')).1
      = List.replicate n (some (createObj e nanArgs p W).1.boundUnsafe) ∧
    (getSharedTimes n ((createObj e nanArgs p W).1, W')).2.2.useCount
        (createObj e nanArgs p W).1.boundUnsafe
      = W'.useCount (createObj e nanArgs p W).1.boundUnsafe + n ∧
    (getSharedTimes n (createObj e nanArgs p W)).2.2.useCount p = 1 + n := by
  have hw : (createObj e nanArgs p W).1.boundShared = some p := rfl
  have hb : (createObj e nanArgs p W).1.boundUnsafe = p := rfl
  have hcount : (createObj e nanArgs p W).2.useCount p = 1 := by
    simp [createObj, makeShared, BindWrapper.mkShared, sharedCopy, sharedRelease, wrapThis,
      addInstance]
  have h1 := getSharedTimes_of_shared n _ p hw W'
  have h2 := getSharedTimes_of_shared n _ p hw (createObj e nanArgs p W).2
  rw [hb]
  refine ⟨rfl, rfl, ?_, h1.1, h1.2.2.1, ?_⟩
  · simp [getShared, hw, sharedCopy]
  · have h3 := h2.2.2.1
    rw [hcount] at h3
    exact h3

/-- C10 on the code: a wrapper that `wrapPtr` made from a raw pointer (flags
that do not select `isSharedPtr`) holds an empty shared handle, and `getShared`
returns that empty handle and changes nothing; no error is raised. -/
theorem getShared_exclusive_returns_empty (e : TypeFlagsDecl)
    (nanArgs : FunctionCallbackInfo) (W W' : World)
    (h : nanArgs.arg1 &&& e.refMask ≠ e.isSharedPtr) :
    (wrapPtr e nanArgs W).1.boundShared = none ∧
    getShared ((wrapPtr e nanArgs W).1, W') = (none, ((wrapPtr e nanArgs W).1, W')) := by
  have hw : (wrapPtr e nanArgs W).1.boundShared = none := by
    simp only [wrapPtr, if_neg h, wrapThis, Wrap, BindWrapper.mkUnsafe]
  refine ⟨hw, ?_⟩
  simp only [getShared, hw, sharedCopy]

/-- C10 at the failing input: the raw pointer `0x1000` rewrapped with empty
flags; `getShared` returns the empty handle. -/
theorem getShared_exclusive_returns_empty_witness :
    (0 : Nat) &&& sampleFlags.refMask ≠ sampleFlags.isSharedPtr ∧
    (getShared (wrapPtr sampleFlags ⟨7, 0x1000, 0⟩ World.init)).1 = none :=
  ⟨by decide,
   congrArg Prod.fst (getShared_exclusive_returns_empty sampleFlags ⟨7, 0x1000, 0⟩
     World.init (wrapPtr sampleFlags ⟨7, 0x1000, 0⟩ World.init).2 (by decide)).2⟩

/-! ## Rewrapping a shared pointer -/

/-- C11: when the flags select `isSharedPtr` and the pointer is the address of
a temporary `shared_ptr` to the value `p`, `wrapPtr` leaves the use count of
`p` as it was (the temporary included before, the wrapper included after) and
changes no other use count; the wrapper's shared handle manages `p`, its address
is `p`, its flags are the given ones, the temporary is gone, and nothing is
deleted when the count was at least one. -/
theorem wrapPtr_shared_keeps_use_count (e : TypeFlagsDecl) (nanArgs : FunctionCallbackInfo)
    (W : World) (p : Addr) (hf : nanArgs.arg1 &&& e.refMask = e.isSharedPtr)
    (hp : W.sharedAt nanArgs.arg0 = some p) :
    (wrapPtr e nanArgs W).2.useCount p = W.useCount p ∧
    (∀ q : Addr, q ≠ p → (wrapPtr e nanArgs W).2.useCount q = W.useCount q) ∧
    (wrapPtr e nanArgs W).1.boundShared = some p ∧
    (wrapPtr e nanArgs W).1.boundUnsafe = p ∧
    getFlags (wrapPtr e nanArgs W).1 = nanArgs.arg1 ∧
    (wrapPtr e nanArgs W).2.sharedAt nanArgs.arg0 = none ∧
    (1 ≤ W.useCount p → (wrapPtr e nanArgs W).2.deleted = W.deleted) := by
  refine ⟨?_, ?_, ?_, ?_, ?_, ?_, ?_⟩
  · simp [wrapPtr, hf, hp, BindWrapper.mkShared, sharedCopy, sharedRelease, wrapThis,
      addInstance]
  · intro q hq
    simp [wrapPtr, hf, hp, BindWrapper.mkShared, sharedCopy, sharedRelease, wrapThis,
      addInstance, Function.update_noteq hq]
  · simp [wrapPtr, hf, hp, BindWrapper.mkShared, wrapThis, Wrap]
  · simp [wrapPtr, hf, hp, BindWrapper.mkShared, wrapThis, Wrap, sharedGet]
  · simp [wrapPtr, hf, hp, BindWrapper.mkShared, wrapThis, Wrap, getFlags]
  · simp [wrapPtr, hf, hp]
  · intro hn
    have h1 : ¬ (W.useCount p + 1 + 1 = 1) := by omega
    have h2 : ¬ (W.useCount p = 0) := by omega
    simp [wrapPtr, hf, hp, BindWrapper.mkShared, sharedCopy, sharedRelease, wrapThis,
      addInstance, h1, h2]

/-- C11 at a concrete input: the temporary at `0x3000` refers to `0x2000`, which
has two owners before and after. -/
theorem wrapPtr_shared_keeps_use_count_witness :
    (32 &&& sampleFlags.refMask = sampleFlags.isSharedPtr) ∧
    World.crossing.sharedAt 0x3000 = some 0x2000 ∧
    (wrapPtr sampleFlags ⟨7, 0x3000, 32⟩ World.crossing).2.useCount 0x2000 = 2 ∧
    (wrapPtr sampleFlags ⟨7, 0x3000, 32⟩ World.crossing).1.boundUnsafe = 0x2000 :=
  ⟨by decide, by decide,
   (wrapPtr_shared_keeps_use_count sampleFlags ⟨7, 0x3000, 32⟩ World.crossing 0x2000
     (by decide) (by decide)).1,
   (wrapPtr_shared_keeps_use_count sampleFlags ⟨7, 0x3000, 32⟩ World.crossing 0x2000
     (by decide) (by decide)).2.2.2.1⟩

/-! ## The process invariants -/

theorem destroy_boundUnsafe (s : BindWrapper × World) : (destroy s).1.boundUnsafe = 0 := by
  by_cases h : s.1.boundUnsafe = 0
  · simp [destroy, h]
  · simp [destroy, h]

theorem destroy_flags (s : BindWrapper × World) : (destroy s).1.flags = s.1.flags := by
  by_cases h : s.1.boundUnsafe = 0
  · simp [destroy, h]
  · simp [destroy, h]

theorem destroy_instanceTbl (s : BindWrapper × World) :
    (destroy s).2.instanceTbl
      = if s.1.boundUnsafe = 0 then s.2.instanceTbl
        else InstanceTbl.erase s.2.instanceTbl s.1.key := by
  by_cases h : s.1.boundUnsafe = 0
  · simp only [destroy, if_pos h]
  · simp only [destroy, if_neg h, removeInstance, BindWrapper.key]
    cases s.1.boundShared <;> rfl

theorem wrapThis_registers (nanArgs : FunctionCallbackInfo) (s : BindWrapper × World) :
    (wrapThis nanArgs s).1.key = s.1.key ∧
    InstanceTbl.find (wrapThis nanArgs s).2.instanceTbl s.1.key
      = some (wrapThis nanArgs s).1.handle_ ∧
    (wrapThis nanArgs s).1.handle_.target = some nanArgs.This ∧
    (∀ k : Key, k ≠ s.1.key →
      InstanceTbl.find (wrapThis nanArgs s).2.instanceTbl k
        = InstanceTbl.find s.2.instanceTbl k) :=
  ⟨rfl, addInstance_find_self s.1 nanArgs.This s.2, rfl,
   fun k hk => addInstance_find_ne s.1 nanArgs.This s.2 k hk⟩

theorem createObj_registers (e : TypeFlagsDecl) (nanArgs : FunctionCallbackInfo) (p : Addr)
    (W : World) :
    InstanceTbl.find (createObj e nanArgs p W).2.instanceTbl (createObj e nanArgs p W).1.key
      = some (createObj e nanArgs p W).1.handle_ ∧
    (createObj e nanArgs p W).1.handle_.target ≠ none ∧
    (∀ k : Key, k ≠ (createObj e nanArgs p W).1.key →
      InstanceTbl.find (createObj e nanArgs p W).2.instanceTbl k
        = InstanceTbl.find W.instanceTbl k) := by
  have h := wrapThis_registers nanArgs
    (BindWrapper.mkShared (makeShared W p).1 e.isSharedPtr (makeShared W p).2)
  refine ⟨h.2.1, by simp [createObj, wrapThis, Wrap, Persistent.MarkIndependent,
    Persistent.SetWeak, Persistent.Reset], fun k hk => h.2.2.2 k hk⟩

theorem wrapPtr_registers (e : TypeFlagsDecl) (nanArgs : FunctionCallbackInfo) (W : World) :
    InstanceTbl.find (wrapPtr e nanArgs W).2.instanceTbl (wrapPtr e nanArgs W).1.key
      = some (wrapPtr e nanArgs W).1.handle_ ∧
    (wrapPtr e nanArgs W).1.handle_.target ≠ none ∧
    (∀ k : Key, k ≠ (wrapPtr e nanArgs W).1.key →
      InstanceTbl.find (wrapPtr e nanArgs W).2.instanceTbl k
        = InstanceTbl.find W.instanceTbl k) := by
  by_cases hf : nanArgs.arg1 &&& e.refMask = e.isSharedPtr
  · have h := wrapThis_registers nanArgs
      (BindWrapper.mkShared (W.sharedAt nanArgs.arg0) nanArgs.arg1
        (sharedCopy W (W.sharedAt nanArgs.arg0)))
    have hW : (BindWrapper.mkShared (W.sharedAt nanArgs.arg0) nanArgs.arg1
        (sharedCopy W (W.sharedAt nanArgs.arg0))).2.instanceTbl = W.instanceTbl := by
      cases hs : W.sharedAt nanArgs.arg0 <;> simp [BindWrapper.mkShared, sharedCopy, hs]
    have hR : (wrapPtr e nanArgs W).2.instanceTbl
        = (wrapThis nanArgs (BindWrapper.mkShared (W.sharedAt nanArgs.arg0) nanArgs.arg1
            (sharedCopy W (W.sharedAt nanArgs.arg0)))).2.instanceTbl := by
      cases hs : W.sharedAt nanArgs.arg0 <;> simp [wrapPtr, hf, sharedRelease, hs]
    have hw : (wrapPtr e nanArgs W).1
        = (wrapThis nanArgs (BindWrapper.mkShared (W.sharedAt nanArgs.arg0) nanArgs.arg1
            (sharedCopy W (W.sharedAt nanArgs.arg0)))).1 := by
      simp [wrapPtr, hf]
    rw [hR, hw]
    refine ⟨h.2.1, by rw [h.2.2.1]; exact Option.some_ne_none _, fun k hk => ?_⟩
    rw [h.2.2.2 k hk, hW]
  · have h := wrapThis_registers nanArgs (BindWrapper.mkUnsafe nanArgs.arg0 nanArgs.arg1, W)
    have hw : wrapPtr e nanArgs W
        = wrapThis nanArgs (BindWrapper.mkUnsafe nanArgs.arg0 nanArgs.arg1, W) := by
      simp [wrapPtr, hf]
    rw [hw]
    exact ⟨h.2.1, by rw [h.2.2.1]; exact Option.some_ne_none _, fun k hk => h.2.2.2 k hk⟩

theorem BindWrapper.key_eq (w w' : BindWrapper) (ha : w.boundUnsafe = w'.boundUnsafe)
    (hf : w.flags = w'.flags) : w.key = w'.key := by
  simp [BindWrapper.key, ha, hf]

theorem applyOp_flags (e : TypeFlagsDecl) (s : BindWrapper × World) (op : WrapperOp) :
    (applyOp e s op).1.flags = s.1.flags := by
  cases op with
  | wrapThis nanArgs => rfl
  | getBound argFlags =>
    by_cases h : (s.1.flags &&& e.isConst) ≠ 0 ∧ (argFlags &&& e.isConst) = 0
    · simp only [applyOp, getBound, if_pos h]
    · simp only [applyOp, getBound, if_neg h]
  | getShared => rfl
  | destroy => exact destroy_flags s
  | env W => rfl

theorem applyOp_boundUnsafe (e : TypeFlagsDecl) (s : BindWrapper × World) (op : WrapperOp) :
    (applyOp e s op).1.boundUnsafe = if op.isDestroy = true then 0 else s.1.boundUnsafe := by
  cases op with
  | wrapThis nanArgs => rfl
  | getBound argFlags =>
    by_cases h : (s.1.flags &&& e.isConst) ≠ 0 ∧ (argFlags &&& e.isConst) = 0
    · simp [applyOp, getBound, h, WrapperOp.isDestroy]
    · simp [applyOp, getBound, h, WrapperOp.isDestroy]
  | getShared => rfl
  | destroy => simpa [WrapperOp.isDestroy, applyOp] using destroy_boundUnsafe s
  | env W => rfl

theorem applyOp_boundShared (e : TypeFlagsDecl) (s : BindWrapper × World) (op : WrapperOp)
    (h : op.isDestroy = false) : (applyOp e s op).1.boundShared = s.1.boundShared := by
  cases op with
  | wrapThis nanArgs => rfl
  | getBound argFlags =>
    by_cases hc : (s.1.flags &&& e.isConst) ≠ 0 ∧ (argFlags &&& e.isConst) = 0
    · simp only [applyOp, getBound, if_pos hc]
    · simp only [applyOp, getBound, if_neg hc]
  | getShared => rfl
  | destroy => cases h
  | env W => rfl

theorem applyOps_flags (e : TypeFlagsDecl) (ops : List WrapperOp) (s : BindWrapper × World) :
    (applyOps e ops s).1.flags = s.1.flags := by
  induction ops generalizing s with
  | nil => rfl
  | cons op ops ih =>
    simp only [applyOps]
    rw [ih, applyOp_flags]

theorem applyOps_boundUnsafe (e : TypeFlagsDecl) (ops : List WrapperOp)
    (s : BindWrapper × World) :
    (applyOps e ops s).1.boundUnsafe
      = if ops.any WrapperOp.isDestroy = true then 0 else s.1.boundUnsafe := by
  induction ops generalizing s with
  | nil => rfl
  | cons op ops ih =>
    simp only [applyOps]
    rw [ih, applyOp_boundUnsafe]
    cases hop : op.isDestroy <;> cases hops : ops.any WrapperOp.isDestroy <;>
      simp [List.any_cons, hop, hops]

theorem applyOps_boundShared (e : TypeFlagsDecl) (ops : List WrapperOp)
    (s : BindWrapper × World) (h : ops.any WrapperOp.isDestroy = false) :
    (applyOps e ops s).1.boundShared = s.1.boundShared := by
  induction ops generalizing s with
  | nil => rfl
  | cons op ops ih =>
    simp only [List.any_cons, Bool.or_eq_false_iff] at h
    simp only [applyOps]
    rw [ih _ h.2, applyOp_boundShared e s op h.1]

theorem applyOps_null_iff (e : TypeFlagsDecl) (ops : List WrapperOp)
    (s : BindWrapper × World) (hs : s.1.boundUnsafe ≠ 0) :
    (applyOps e ops s).1.boundUnsafe = 0 ↔ ops.any WrapperOp.isDestroy = true := by
  rw [applyOps_boundUnsafe]
  cases hops : ops.any WrapperOp.isDestroy
  · simp [hs]
  · simp

theorem wrapPtr_boundUnsafe (e : TypeFlagsDecl) (nanArgs : FunctionCallbackInfo) (W : World) :
    (wrapPtr e nanArgs W).1.boundUnsafe
      = if nanArgs.arg1 &&& e.refMask = e.isSharedPtr
        then sharedGet (W.sharedAt nanArgs.arg0) else nanArgs.arg0 := by
  by_cases hf : nanArgs.arg1 &&& e.refMask = e.isSharedPtr
  · simp [wrapPtr, hf, wrapThis, Wrap, BindWrapper.mkShared]
  · simp [wrapPtr, hf, wrapThis, Wrap, BindWrapper.mkUnsafe]

theorem wrapPtr_flags (e : TypeFlagsDecl) (nanArgs : FunctionCallbackInfo) (W : World) :
    (wrapPtr e nanArgs W).1.flags = nanArgs.arg1 := by
  by_cases hf : nanArgs.arg1 &&& e.refMask = e.isSharedPtr
  · simp [wrapPtr, hf, wrapThis, Wrap, BindWrapper.mkShared]
  · simp [wrapPtr, hf, wrapThis, Wrap, BindWrapper.mkUnsafe]

theorem wrapPtr_boundShared (e : TypeFlagsDecl) (nanArgs : FunctionCallbackInfo) (W : World) :
    (wrapPtr e nanArgs W).1.boundShared
      = if nanArgs.arg1 &&& e.refMask = e.isSharedPtr
        then W.sharedAt nanArgs.arg0 else none := by
  by_cases hf : nanArgs.arg1 &&& e.refMask = e.isSharedPtr
  · simp [wrapPtr, hf, wrapThis, Wrap, BindWrapper.mkShared]
  · simp [wrapPtr, hf, wrapThis, Wrap, BindWrapper.mkUnsafe]

/-! ## The null address as the destroyed mark -/

/-- C13 fails as stated: `wrapPtr` from a null raw pointer makes a wrapper whose
address is null although `destroy` was never called on it. -/
theorem wrapPtr_null_pointer_null_address :
    (wrapPtr sampleFlags ⟨7, 0, 0⟩ World.init).1.boundUnsafe = 0 ∧
    ¬ ((applyOps sampleFlags [] (wrapPtr sampleFlags ⟨7, 0, 0⟩ World.init)).1.boundUnsafe = 0
        ↔ ([] : List WrapperOp).any WrapperOp.isDestroy = true) := by
  refine ⟨rfl, fun h => ?_⟩
  have h2 := h.mp rfl
  simp at h2

/-- C13 as amended: a wrapper made by `createObj` for a non-null allocation, by
`wrapPtr` from a non-null raw pointer, or by `wrapPtr` from a temporary
`shared_ptr` to a non-null value has that non-null address, and after any
sequence of calls on it (with any steps of the rest of the process in between)
its address is still that same address when the sequence contains no `destroy`
and is null when it contains one; so the address is null exactly when a
`destroy` has been called. -/
theorem address_null_iff_destroyed (e : TypeFlagsDecl) (nanArgs : FunctionCallbackInfo)
    (p : Addr) (W : World) (ops : List WrapperOp) :
    (p ≠ 0 →
      (createObj e nanArgs p W).1.boundUnsafe = p ∧
      (applyOps e ops (createObj e nanArgs p W)).1.boundUnsafe
        = (if ops.any WrapperOp.isDestroy = true then 0 else p) ∧
      ((applyOps e ops (createObj e nanArgs p W)).1.boundUnsafe = 0
        ↔ ops.any WrapperOp.isDestroy = true)) ∧
    (nanArgs.arg1 &&& e.refMask ≠ e.isSharedPtr → nanArgs.arg0 ≠ 0 →
      (wrapPtr e nanArgs W).1.boundUnsafe = nanArgs.arg0 ∧
      (applyOps e ops (wrapPtr e nanArgs W)).1.boundUnsafe
        = (if ops.any WrapperOp.isDestroy = true then 0 else nanArgs.arg0) ∧
      ((applyOps e ops (wrapPtr e nanArgs W)).1.boundUnsafe = 0
        ↔ ops.any WrapperOp.isDestroy = true)) ∧
    (nanArgs.arg1 &&& e.refMask = e.isSharedPtr → W.sharedAt nanArgs.arg0 = some p →
      p ≠ 0 →
      (wrapPtr e nanArgs W).1.boundUnsafe = p ∧
      (applyOps e ops (wrapPtr e nanArgs W)).1.boundUnsafe
        = (if ops.any WrapperOp.isDestroy = true then 0 else p) ∧
      ((applyOps e ops (wrapPtr e nanArgs W)).1.boundUnsafe = 0
        ↔ ops.any WrapperOp.isDestroy = true)) := by
  refine ⟨?_, ?_, ?_⟩
  · intro hp
    exact ⟨rfl, applyOps_boundUnsafe e ops _, applyOps_null_iff e ops _ hp⟩
  · intro hf h0
    have hb : (wrapPtr e nanArgs W).1.boundUnsafe = nanArgs.arg0 := by
      rw [wrapPtr_boundUnsafe, if_neg hf]
    refine ⟨hb, ?_, applyOps_null_iff e ops _ (by rw [hb]; exact h0)⟩
    rw [applyOps_boundUnsafe, hb]
  · intro hf hs hp
    have hb : (wrapPtr e nanArgs W).1.boundUnsafe = p := by
      rw [wrapPtr_boundUnsafe, if_pos hf, hs]; rfl
    refine ⟨hb, ?_, applyOps_null_iff e ops _ (by rw [hb]; exact hp)⟩
    rw [applyOps_boundUnsafe, hb]

/-- C13 as amended, at a concrete input: `0x1000` rewrapped, then `getBound`,
`getShared`, `destroy`, `getBound`; the address is `0x1000` up to the `destroy`
and null after it. -/
theorem address_null_iff_destroyed_witness :
    ((0 : Nat) &&& sampleFlags.refMask ≠ sampleFlags.isSharedPtr) ∧ (0x1000 : Addr) ≠ 0 ∧
    (wrapPtr sampleFlags ⟨7, 0x1000, 0⟩ World.init).1.boundUnsafe = 0x1000 ∧
    (applyOps sampleFlags
      [WrapperOp.getBound 0, WrapperOp.getShared]
      (wrapPtr sampleFlags ⟨7, 0x1000, 0⟩ World.init)).1.boundUnsafe = 0x1000 ∧
    (applyOps sampleFlags
      [WrapperOp.getBound 0, WrapperOp.getShared, WrapperOp.destroy, WrapperOp.getBound 0]
      (wrapPtr sampleFlags ⟨7, 0x1000, 0⟩ World.init)).1.boundUnsafe = 0 := by
  have h1 := (address_null_iff_destroyed sampleFlags ⟨7, 0x1000, 0⟩ 0 World.init
    [WrapperOp.getBound 0, WrapperOp.getShared]).2.1 (by decide) (by decide)
  have h2 := (address_null_iff_destroyed sampleFlags ⟨7, 0x1000, 0⟩ 0 World.init
    [WrapperOp.getBound 0, WrapperOp.getShared, WrapperOp.destroy,
      WrapperOp.getBound 0]).2.1 (by decide) (by decide)
  exact ⟨by decide, by decide, h1.1, h1.2.1.trans (by decide), h2.2.2.mpr (by decide)⟩

/-! ## Staleness after destruction -/

theorem findInstance_of_find_some (tbl : InstanceTbl) (a : Addr) (f : TypeFlags)
    (v : Persistent) (h : InstanceTbl.find tbl ⟨a, f⟩ = some v) :
    findInstance tbl a f = (v, tbl) := by
  simp [findInstance, InstanceTbl.subscript, InstanceTbl.deref, h]

theorem findInstance_of_find_none (tbl : InstanceTbl) (a : Addr) (f : TypeFlags)
    (h : InstanceTbl.find tbl ⟨a, f⟩ = none) :
    findInstance tbl a f = (Persistent.empty, (⟨a, f⟩, Persistent.empty) :: tbl) := by
  simp [findInstance, InstanceTbl.subscript, InstanceTbl.deref, h, InstanceTbl.find_cons]

theorem destroy_find_self (s : BindWrapper × World) (h : s.1.boundUnsafe ≠ 0) :
    InstanceTbl.find (destroy s).2.instanceTbl s.1.key = none := by
  rw [destroy_instanceTbl, if_neg h]
  exact InstanceTbl.find_erase_self _ _

theorem wrapThis_findInstance (nanArgs : FunctionCallbackInfo) (s : BindWrapper × World) :
    findInstance (wrapThis nanArgs s).2.instanceTbl s.1.boundUnsafe s.1.flags
      = ({ target := some nanArgs.This, weak := true, independent := true },
         (wrapThis nanArgs s).2.instanceTbl) :=
  findInstance_of_find_some _ _ _ _ (addInstance_find_self s.1 nanArgs.This s.2)

theorem wrapPtr_handle_target (e : TypeFlagsDecl) (nanArgs : FunctionCallbackInfo)
    (W : World) : (wrapPtr e nanArgs W).1.handle_.target = some nanArgs.This := by
  by_cases hf : nanArgs.arg1 &&& e.refMask = e.isSharedPtr
  · simp [wrapPtr, hf, wrapThis, Wrap, BindWrapper.mkShared, Persistent.MarkIndependent,
      Persistent.SetWeak, Persistent.Reset]
  · simp [wrapPtr, hf, wrapThis, Wrap, BindWrapper.mkUnsafe, Persistent.MarkIndependent,
      Persistent.SetWeak, Persistent.Reset]

theorem wrapPtr_findInstance (e : TypeFlagsDecl) (nanArgs : FunctionCallbackInfo)
    (W : World) :
    (findInstance (wrapPtr e nanArgs W).2.instanceTbl
      (wrapPtr e nanArgs W).1.boundUnsafe (wrapPtr e nanArgs W).1.flags).1.target
      = some nanArgs.This := by
  rw [findInstance_of_find_some _ _ _ _ (wrapPtr_registers e nanArgs W).1]
  exact wrapPtr_handle_target e nanArgs W

/-- C14: for a wrapper that is not yet destroyed and whose key's slot refers to
its object, `findInstance` at its address and flags returns that slot before
`destroy` and an empty slot after `destroy`, also after later steps of the
native side. When a new wrapper with the same address and flags is then
registered, `findInstance` returns a slot that refers to the new wrapper's
object, so not to the destroyed wrapper's unless the two objects are the same:
this holds for `wrapThis`, for `wrapPtr` of a raw pointer equal to the address,
for `wrapPtr` of a temporary `shared_ptr` to the address, and for `createObj`
allocating at the address. -/
theorem destroy_then_rewrap_refreshes_slot (e : TypeFlagsDecl) (w w' : BindWrapper)
    (W Wn : World) (v : Persistent) (nanArgs : FunctionCallbackInfo)
    (hlive : w.boundUnsafe ≠ 0)
    (hreg : InstanceTbl.find W.instanceTbl w.key = some v)
    (hown : v.target = w.handle_.target)
    (hkey : w'.key = w.key)
    (hWn : Wn.instanceTbl = (destroy (w, W)).2.instanceTbl) :
    findInstance W.instanceTbl w.boundUnsafe w.flags = (v, W.instanceTbl) ∧
    (findInstance W.instanceTbl w.boundUnsafe w.flags).1.target = w.handle_.target ∧
    (findInstance (destroy (w, W)).2.instanceTbl w.boundUnsafe w.flags).1
      = Persistent.empty ∧
    (findInstance Wn.instanceTbl w.boundUnsafe w.flags).1 = Persistent.empty ∧
    (findInstance (wrapThis nanArgs (w', Wn)).2.instanceTbl w.boundUnsafe w.flags).1
      = { target := some nanArgs.This, weak := true, independent := true } ∧
    (some nanArgs.This ≠ w.handle_.target →
      (findInstance (wrapThis nanArgs (w', Wn)).2.instanceTbl
        w.boundUnsafe w.flags).1.target ≠ w.handle_.target) ∧
    ((wrapPtr e nanArgs Wn).1.key = w.key →
      (findInstance (wrapPtr e nanArgs Wn).2.instanceTbl
        w.boundUnsafe w.flags).1.target = some nanArgs.This) ∧
    (nanArgs.arg1 &&& e.refMask ≠ e.isSharedPtr → nanArgs.arg0 = w.boundUnsafe →
      nanArgs.arg1 = w.flags →
      (findInstance (wrapPtr e nanArgs Wn).2.instanceTbl
        w.boundUnsafe w.flags).1.target = some nanArgs.This) ∧
    (nanArgs.arg1 &&& e.refMask = e.isSharedPtr →
      Wn.sharedAt nanArgs.arg0 = some w.boundUnsafe → nanArgs.arg1 = w.flags →
      (wrapPtr e nanArgs Wn).1.boundShared = some w.boundUnsafe ∧
      (findInstance (wrapPtr e nanArgs Wn).2.instanceTbl
        w.boundUnsafe w.flags).1.target = some nanArgs.This) ∧
    (e.isSharedPtr = w.flags →
      (findInstance (createObj e nanArgs w.boundUnsafe Wn).2.instanceTbl
        w.boundUnsafe w.flags).1.target = some nanArgs.This) := by
  have hbefore : findInstance W.instanceTbl w.boundUnsafe w.flags = (v, W.instanceTbl) :=
    findInstance_of_find_some _ _ _ _ hreg
  have hafter := findInstance_of_find_none _ _ _ (destroy_find_self (w, W) hlive)
  have hb : w'.boundUnsafe = w.boundUnsafe := congrArg HashablePair.first hkey
  have hf : w'.flags = w.flags := congrArg HashablePair.second hkey
  have hnew := wrapThis_findInstance nanArgs (w', Wn)
  rw [hb, hf] at hnew
  have hptr : ∀ a : FunctionCallbackInfo, (wrapPtr e a Wn).1.key = w.key →
      (findInstance (wrapPtr e a Wn).2.instanceTbl w.boundUnsafe w.flags).1.target
        = some a.This := by
    intro a hk
    have h := wrapPtr_findInstance e a Wn
    have h1 : (wrapPtr e a Wn).1.boundUnsafe = w.boundUnsafe :=
      congrArg HashablePair.first hk
    have h2 : (wrapPtr e a Wn).1.flags = w.flags := congrArg HashablePair.second hk
    rw [h1, h2] at h
    exact h
  refine ⟨hbefore, ?_, ?_, ?_, ?_, ?_, hptr nanArgs, ?_, ?_, ?_⟩
  · rw [hbefore]; exact hown
  · rw [hafter]
  · rw [hWn, hafter]
  · rw [hnew]
  · intro hne
    rw [hnew]
    exact hne
  · intro hx h0 h1
    apply hptr nanArgs
    have hbu := wrapPtr_boundUnsafe e nanArgs Wn
    rw [if_neg hx] at hbu
    exact BindWrapper.key_eq _ _ (hbu.trans h0) ((wrapPtr_flags e nanArgs Wn).trans h1)
  · intro hx hs h1
    have hbu := wrapPtr_boundUnsafe e nanArgs Wn
    rw [if_pos hx, hs] at hbu
    have hbs := wrapPtr_boundShared e nanArgs Wn
    rw [if_pos hx, hs] at hbs
    exact ⟨hbs, hptr nanArgs
      (BindWrapper.key_eq _ _ hbu ((wrapPtr_flags e nanArgs Wn).trans h1))⟩
  · intro hfl
    have h := (createObj_registers e nanArgs w.boundUnsafe Wn).1
    have hk : (createObj e nanArgs w.boundUnsafe Wn).1.key
        = ⟨w.boundUnsafe, w.flags⟩ := by
      rw [← hfl]; rfl
    rw [hk] at h
    rw [findInstance_of_find_some _ _ _ _ h]
    rfl

/-- C14 at a concrete input: the temporary `shared_ptr` at `0x3000` to the value
at `0x2000` is rewrapped for object `7`, the wrapper is destroyed, the native
side puts a temporary at `0x3000` again and it is rewrapped for object `8`. -/
theorem destroy_then_rewrap_refreshes_slot_witness :
    (wrapPtr sampleFlags ⟨7, 0x3000, 32⟩ World.crossing).1.boundUnsafe ≠ 0 ∧
    (wrapPtr sampleFlags ⟨7, 0x3000, 32⟩ World.crossing).1.boundShared = some 0x2000 ∧
    (findInstance (wrapPtr sampleFlags ⟨7, 0x3000, 32⟩ World.crossing).2.instanceTbl
      0x2000 32).1.target = some 7 ∧
    (findInstance
      (destroy (wrapPtr sampleFlags ⟨7, 0x3000, 32⟩ World.crossing)).2.instanceTbl
      0x2000 32).1 = Persistent.empty ∧
    (findInstance (wrapPtr sampleFlags ⟨8, 0x3000, 32⟩
      { World.crossing with instanceTbl :=
          (destroy (wrapPtr sampleFlags ⟨7, 0x3000, 32⟩
            World.crossing)).2.instanceTbl }).2.instanceTbl
      0x2000 32).1.target = some 8 := by
  have key := destroy_then_rewrap_refreshes_slot sampleFlags
    (wrapPtr sampleFlags ⟨7, 0x3000, 32⟩ World.crossing).1
    (BindWrapper.mkUnsafe 0x2000 32)
    (wrapPtr sampleFlags ⟨7, 0x3000, 32⟩ World.crossing).2
    { World.crossing with instanceTbl :=
        (destroy (wrapPtr sampleFlags ⟨7, 0x3000, 32⟩ World.crossing)).2.instanceTbl }
    { target := some 7, weak := true, independent := true } ⟨8, 0x3000, 32⟩
    (by decide) (by decide) (by decide) (by decide) rfl
  exact ⟨by decide, by decide, key.2.1, key.2.2.1,
    (key.2.2.2.2.2.2.2.2.1 (by decide) (by decide) rfl).2⟩

/-! ## Ownership mode and flags -/

/-- C15: let `isSharedPtr` lie within `refMask`, and let the temporary
`shared_ptr` be non-empty whenever the flags select `isSharedPtr`. Then a wrapper
made by `createObj` or `wrapPtr`, after any calls other than `destroy`, holds a
shared handle exactly when its flags select `isSharedPtr`. On the exclusive path
of `wrapPtr` the wrapper's address is the raw pointer given, its flags are the
flags given, its shared handle is empty, and no use count changes and nothing is
deleted. -/
theorem shared_handle_iff_flags_select_shared (e : TypeFlagsDecl)
    (nanArgs : FunctionCallbackInfo) (p : Addr) (W : World) (ops : List WrapperOp)
    (henum : e.isSharedPtr &&& e.refMask = e.isSharedPtr)
    (htemp : nanArgs.arg1 &&& e.refMask = e.isSharedPtr → W.sharedAt nanArgs.arg0 ≠ none)
    (hnd : ops.any WrapperOp.isDestroy = false) :
    ((applyOps e ops (createObj e nanArgs p W)).1.boundShared ≠ none ↔
      getFlags (applyOps e ops (createObj e nanArgs p W)).1 &&& e.refMask = e.isSharedPtr) ∧
    ((applyOps e ops (wrapPtr e nanArgs W)).1.boundShared ≠ none ↔
      getFlags (applyOps e ops (wrapPtr e nanArgs W)).1 &&& e.refMask = e.isSharedPtr) ∧
    (nanArgs.arg1 &&& e.refMask ≠ e.isSharedPtr →
      (wrapPtr e nanArgs W).1.boundUnsafe = nanArgs.arg0 ∧
      getFlags (wrapPtr e nanArgs W).1 = nanArgs.arg1 ∧
      (wrapPtr e nanArgs W).1.boundShared = none ∧
      (wrapPtr e nanArgs W).2.useCount = W.useCount ∧
      (wrapPtr e nanArgs W).2.deleted = W.deleted) := by
  refine ⟨?_, ?_, ?_⟩
  · rw [applyOps_boundShared e ops _ hnd, getFlags, applyOps_flags]
    have hs : (createObj e nanArgs p W).1.boundShared = some p := rfl
    have hf : (createObj e nanArgs p W).1.flags = e.isSharedPtr := rfl
    rw [hs, hf]
    exact ⟨fun _ => henum, fun _ => Option.some_ne_none p⟩
  · rw [applyOps_boundShared e ops _ hnd, getFlags, applyOps_flags, wrapPtr_boundShared,
      wrapPtr_flags]
    by_cases hsel : nanArgs.arg1 &&& e.refMask = e.isSharedPtr
    · rw [if_pos hsel]
      exact ⟨fun _ => hsel, fun _ => htemp hsel⟩
    · rw [if_neg hsel]
      exact ⟨fun h => absurd rfl h, fun h => absurd h hsel⟩
  · intro hsel
    have hw : wrapPtr e nanArgs W
        = wrapThis nanArgs (BindWrapper.mkUnsafe nanArgs.arg0 nanArgs.arg1, W) := by
      simp [wrapPtr, hsel]
    rw [hw]
    exact ⟨rfl, rfl, rfl, rfl, rfl⟩

/-- C15 at a concrete input: a shared rewrap of the temporary at `0x3000` holds a
handle, an exclusive rewrap of `0x1000` does not. -/
theorem shared_handle_iff_flags_select_shared_witness :
    (sampleFlags.isSharedPtr &&& sampleFlags.refMask = sampleFlags.isSharedPtr) ∧
    (applyOps sampleFlags [WrapperOp.getShared]
      (wrapPtr sampleFlags ⟨7, 0x3000, 32⟩ World.crossing)).1.boundShared ≠ none ∧
    (wrapPtr sampleFlags ⟨7, 0x1000, 1⟩ World.crossing).1.boundShared = none := by
  have h1 := shared_handle_iff_flags_select_shared sampleFlags ⟨7, 0x3000, 32⟩ 0x2000
    World.crossing [WrapperOp.getShared] (by decide) (fun _ => by decide) (by decide)
  have h2 := shared_handle_iff_flags_select_shared sampleFlags ⟨7, 0x1000, 1⟩ 0x2000
    World.crossing [] (by decide) (fun h => absurd h (by decide)) (by decide)
  exact ⟨by decide, h1.2.1.mpr (by decide), (h2.2.2 (by decide)).2.2.1⟩

/-- C16: after any sequence of `wrapThis`, `getBound`, `getShared` and `destroy`
calls on a wrapper (repeated `destroy` included, with any steps of the rest of
the process in between), `getFlags` returns what it returned before the
sequence, and right after construction it returns the flags given to the
constructor: the given flags for both constructors and for `wrapPtr`, and
`isSharedPtr` for `createObj`. -/
theorem getFlags_unchanged_by_calls (e : TypeFlagsDecl) (ops : List WrapperOp)
    (s : BindWrapper × World) (bound : Addr) (sp : Option Addr) (flags : TypeFlags)
    (nanArgs : FunctionCallbackInfo) (p : Addr) (W : World) :
    getFlags (applyOps e ops s).1 = getFlags s.1 ∧
    getFlags (BindWrapper.mkUnsafe bound flags) = flags ∧
    getFlags (BindWrapper.mkShared sp flags W).1 = flags ∧
    getFlags (applyOps e ops (BindWrapper.mkUnsafe bound flags, W)).1 = flags ∧
    getFlags (applyOps e ops (BindWrapper.mkShared sp flags W)).1 = flags ∧
    getFlags (applyOps e ops (wrapPtr e nanArgs W)).1 = nanArgs.arg1 ∧
    getFlags (applyOps e ops (createObj e nanArgs p W)).1 = e.isSharedPtr := by
  refine ⟨applyOps_flags e ops s, rfl, rfl, ?_, ?_, ?_, ?_⟩
  · rw [getFlags, applyOps_flags]; rfl
  · rw [getFlags, applyOps_flags]; rfl
  · rw [getFlags, applyOps_flags, wrapPtr_flags]
  · rw [getFlags, applyOps_flags]; rfl

/-! ## Keys: equality and hash -/

theorem hashPair_eq_stated {A B : Type} (bits : Nat) (hashA : A → Nat) (hashB : B → Nat)
    (obj : HashablePair A B) :
    hashPair bits hashA hashB obj
      = hashPairStated bits (hashA obj.first) (hashB obj.second) := by
  have key : ∀ m x y h : Nat,
      ((x % m + y) % m + h % m) % m = ((x + y) % m + h) % m := by
    intro m x y h
    rw [← Nat.add_mod, Nat.add_assoc, Nat.mod_add_mod, Nat.mod_add_mod, Nat.add_assoc]
  simp only [hashPair, hashPairStated]
  rw [key, Nat.add_assoc]

/-- C17: two keys are equal exactly when their addresses and their flags are
equal, equal keys have equal hashes, the hash of a key is, in `size_t` wrapping
arithmetic, `r2 + hash(b) + 0x9e3779b9` with `r1 = hash(a) + 0x9e3779b9` and
`r2 = (r1 << 6) + (r1 >> 2)`, and the flags are hashed as their `uint32_t`
value. -/
theorem key_equality_and_hash_structural (bits : Nat) (hashPtr hashU32 : Nat → Nat)
    (k1 k2 : Key) :
    (k1 = k2 ↔ k1.first = k2.first ∧ k1.second = k2.second) ∧
    (k1 = k2 →
      hashPair bits hashPtr (hashTypeFlags hashU32) k1
        = hashPair bits hashPtr (hashTypeFlags hashU32) k2) ∧
    hashPair bits hashPtr (hashTypeFlags hashU32) k1
      = hashPairStated bits (hashPtr k1.first) (hashTypeFlags hashU32 k1.second) ∧
    hashTypeFlags hashU32 k1.second = hashU32 (k1.second % 2 ^ 32) ∧
    (k1.second < 2 ^ 32 → hashTypeFlags hashU32 k1.second = hashU32 k1.second) := by
  refine ⟨?_, ?_, hashPair_eq_stated bits hashPtr _ k1, rfl, ?_⟩
  · constructor
    · intro h; rw [h]; exact ⟨rfl, rfl⟩
    · intro h
      cases k1; cases k2
      simp only at h
      rw [h.1, h.2]
  · intro h; rw [h]
  · intro h
    rw [hashTypeFlags, Nat.mod_eq_of_lt h]

/-- C17 at a concrete input: 64-bit `size_t` and identity library hashes; the key
`(0x1000, 1)` hashes to `173202197096` and two equal keys have that hash. -/
theorem key_equality_and_hash_structural_witness :
    ((⟨0x1000, 1⟩ : Key) = ⟨0x1000, 1⟩) ∧
    hashPair 64 id (hashTypeFlags id) (⟨0x1000, 1⟩ : Key)
      = hashPair 64 id (hashTypeFlags id) (⟨0x1000, 1⟩ : Key) ∧
    hashPair 64 id (hashTypeFlags id) (⟨0x1000, 1⟩ : Key) = 173202197096 :=
  ⟨rfl,
   (key_equality_and_hash_structural 64 id id ⟨0x1000, 1⟩ ⟨0x1000, 1⟩).2.1 rfl,
   (key_equality_and_hash_structural 64 id id ⟨0x1000, 1⟩ ⟨0x1000, 1⟩).2.2.1.trans
     (by decide)⟩

/-! ## Destruction does not look at the slot -/

/-- C18: let two wrappers with the same address and flags, the first not yet
destroyed, be registered one after the other. The slot then refers to the second
wrapper's object. Destroying the first wrapper erases that slot: the second
wrapper is still not destroyed and still wraps its object, but its key has no
entry and `findInstance` for its key returns an empty slot. -/
theorem destroy_first_erases_slot_of_second (w1 w2 : BindWrapper)
    (a1 a2 : FunctionCallbackInfo) (W : World)
    (hkey : w2.key = w1.key) (hlive : w1.boundUnsafe ≠ 0) :
    InstanceTbl.find (wrapThis a2 (w2, (wrapThis a1 (w1, W)).2)).2.instanceTbl w2.key
      = some { target := some a2.This, weak := true, independent := true } ∧
    (wrapThis a2 (w2, (wrapThis a1 (w1, W)).2)).1.boundUnsafe ≠ 0 ∧
    (wrapThis a2 (w2, (wrapThis a1 (w1, W)).2)).1.handle_.target = some a2.This ∧
    (wrapThis a2 (w2, (wrapThis a1 (w1, W)).2)).1.key = w2.key ∧
    InstanceTbl.find
      (destroy ((wrapThis a1 (w1, W)).1,
        (wrapThis a2 (w2, (wrapThis a1 (w1, W)).2)).2)).2.instanceTbl w2.key = none ∧
    (findInstance
      (destroy ((wrapThis a1 (w1, W)).1,
        (wrapThis a2 (w2, (wrapThis a1 (w1, W)).2)).2)).2.instanceTbl
      w2.boundUnsafe w2.flags).1 = Persistent.empty := by
  have hb : w2.boundUnsafe = w1.boundUnsafe := congrArg HashablePair.first hkey
  have hreg := addInstance_find_self w2 a2.This (wrapThis a1 (w1, W)).2
  have hgone : InstanceTbl.find
      (destroy ((wrapThis a1 (w1, W)).1,
        (wrapThis a2 (w2, (wrapThis a1 (w1, W)).2)).2)).2.instanceTbl w2.key = none := by
    have h := destroy_find_self
      ((wrapThis a1 (w1, W)).1, (wrapThis a2 (w2, (wrapThis a1 (w1, W)).2)).2) hlive
    rw [hkey]
    exact h
  refine ⟨hreg, ?_, rfl, rfl, hgone, ?_⟩
  · change w2.boundUnsafe ≠ 0
    rw [hb]; exact hlive
  · rw [findInstance_of_find_none _ _ _ hgone]

/-- C18 at a concrete input: `0x1000` rewrapped twice with the same flags, for
the objects `7` and `8`; destroying the first wrapper removes the slot of the
second. -/
theorem destroy_first_erases_slot_of_second_witness :
    (BindWrapper.mkUnsafe 0x1000 0).key = (BindWrapper.mkUnsafe 0x1000 0).key ∧
    (BindWrapper.mkUnsafe 0x1000 0).boundUnsafe ≠ 0 ∧
    InstanceTbl.find
      (destroy ((wrapPtr sampleFlags ⟨7, 0x1000, 0⟩ World.init).1,
        (wrapPtr sampleFlags ⟨8, 0x1000, 0⟩
          (wrapPtr sampleFlags ⟨7, 0x1000, 0⟩ World.init).2).2)).2.instanceTbl
      ⟨0x1000, 0⟩ = none ∧
    (wrapPtr sampleFlags ⟨8, 0x1000, 0⟩
      (wrapPtr sampleFlags ⟨7, 0x1000, 0⟩ World.init).2).1.boundUnsafe ≠ 0 :=
  ⟨rfl, by decide,
   (destroy_first_erases_slot_of_second (BindWrapper.mkUnsafe 0x1000 0)
     (BindWrapper.mkUnsafe 0x1000 0) ⟨7, 0x1000, 0⟩ ⟨8, 0x1000, 0⟩ World.init rfl
     (by decide)).2.2.2.2.1,
   (destroy_first_erases_slot_of_second (BindWrapper.mkUnsafe 0x1000 0)
     (BindWrapper.mkUnsafe 0x1000 0) ⟨7, 0x1000, 0⟩ ⟨8, 0x1000, 0⟩ World.init rfl
     (by decide)).2.1⟩

/-! ## Access after destruction -/

/-- C19: after `destroy` the wrapper's address is null, and `getBound f` still
throws exactly when the wrapper's flags have the `isConst` bit and `f` does not;
in every other case it returns the null address, with the state as `destroy`
left it. -/
theorem getBound_after_destroy_returns_null (e : TypeFlagsDecl) (s : BindWrapper × World)
    (f : TypeFlags) :
    (destroy s).1.boundUnsafe = 0 ∧
    ((∃ x, getBound e f (destroy s) = Except.error x) ↔
      ((s.1.flags &&& e.isConst) ≠ 0 ∧ (f &&& e.isConst) = 0)) ∧
    (((s.1.flags &&& e.isConst) ≠ 0 ∧ (f &&& e.isConst) = 0) ∨
      getBound e f (destroy s) = Except.ok (0, destroy s)) ∧
    ((wrapPtr sampleFlags ⟨7, 0x1000, 0⟩ World.init).1.boundUnsafe = 0x1000 ∧
      getBound sampleFlags 0 (destroy (wrapPtr sampleFlags ⟨7, 0x1000, 0⟩ World.init))
        = Except.ok (0, destroy (wrapPtr sampleFlags ⟨7, 0x1000, 0⟩ World.init))) := by
  have hb := destroy_boundUnsafe s
  have hf := destroy_flags s
  refine ⟨hb, ?_, ?_, rfl, ?_⟩
  · by_cases h : (s.1.flags &&& e.isConst) ≠ 0 ∧ (f &&& e.isConst) = 0
    · have hg : getBound e f (destroy s) = Except.error (Exn.runtime_error constArgMessage) := by
        rw [getBound, hf, if_pos h]
      exact ⟨fun _ => h, fun _ => ⟨_, hg⟩⟩
    · have hg : getBound e f (destroy s) = Except.ok ((destroy s).1.boundUnsafe, destroy s) := by
        rw [getBound, hf, if_neg h]
      refine ⟨?_, fun hc => absurd hc h⟩
      rintro ⟨x, hx⟩
      rw [hg] at hx
      cases hx
  · by_cases h : (s.1.flags &&& e.isConst) ≠ 0 ∧ (f &&& e.isConst) = 0
    · exact Or.inl h
    · refine Or.inr ?_
      rw [getBound, hf, if_neg h, hb]
  · have h0 := destroy_boundUnsafe (wrapPtr sampleFlags ⟨7, 0x1000, 0⟩ World.init)
    have hn : ¬ (((destroy (wrapPtr sampleFlags ⟨7, 0x1000, 0⟩ World.init)).1.flags
        &&& sampleFlags.isConst) ≠ 0 ∧ ((0 : Nat) &&& sampleFlags.isConst) = 0) := by
      rw [destroy_flags]; decide
    rw [getBound, if_neg hn, h0]

end nbind
